import Mathlib

/-!
# Verification of the Playwright airline-booking automation framework

Shallow embedding of the pure logic of the repository:

* `lib/utils/passengerBuilder.ts` — `PassengerBuilder` (passenger-string
  parsing, passenger expansion, combination validation);
* `lib/excel/excelReader.ts` — `ExcelReader` (row parsing, trip type,
  cabin class, passenger and date parsing, date normalization);
* `pages/BasePage.ts` — `waitFor` fallback-selector logic and `retry`
  exponential backoff;
* `lib/ai/selectorAssistant.ts` — `generateFallbackSelectors`;
* `tests/comprehensive-e2e.spec.ts` — `executeScenario` and the
  action-directed step functions.

JavaScript strings are modelled as Lean `String` (working on `String.data`
character lists); thrown exceptions as `Except String`; the
environment-dependent `new Date(...)` parser as an explicit oracle
parameter; `Math.random`-driven name/date generation as oracle functions.
-/

deriving instance DecidableEq for Except

/-- JS whitespace for `\s`, `trim` (the characters relevant here). -/
def isJsSpace (c : Char) : Bool :=
  c = ' ' || c = '\t' || c = '\n' || c = '\r'

/-- JS `\w` character class: `[A-Za-z0-9_]`. -/
def isWordChar (c : Char) : Bool :=
  c.isAlphanum || c = '_'

/-- Characters of a string after JS `String.prototype.trim`. -/
def trimChars (cs : List Char) : List Char :=
  ((cs.dropWhile isJsSpace).reverse.dropWhile isJsSpace).reverse

/-- JS `s.trim()`. -/
def jsTrim (s : String) : String :=
  ⟨trimChars s.data⟩

/-- JS `s.split(',')` on character lists: every comma is a separator,
`""` splits to `[""]`. -/
def splitComma : List Char → List (List Char)
  | [] => [[]]
  | c :: rest =>
    match splitComma rest with
    | [] => [[c]]
    | h :: t => if c = ',' then [] :: h :: t else (c :: h) :: t

/-- Digit characters to the number they denote (JS `parseInt` on an
all-digit string). -/
def digitsToNat (ds : List Char) : Nat :=
  ds.foldl (fun n c => n * 10 + (c.toNat - '0'.toNat)) 0

/-- `PassengerType` from `lib/data/types.ts`. -/
inductive PassengerType where
  | ADT | CHD | INF
deriving DecidableEq, Repr

/-- `PassengerCount` from `lib/data/types.ts`. -/
structure PassengerCount where
  type : PassengerType
  count : Nat
deriving DecidableEq, Repr

/-- `Passenger` from `lib/data/types.ts` (`associatedAdult` is the
optional property set only for infants). -/
structure Passenger where
  type : PassengerType
  title : String
  firstName : String
  lastName : String
  dateOfBirth : String
  associatedAdult : Option String := none
deriving DecidableEq, Repr

/-- The sum of the counts listed for one passenger type (the claim's
"sum of the counts listed for that type"). -/
def sumCountsOfType (t : PassengerType) (counts : List PassengerCount) : Nat :=
  ((counts.filter (fun pc => pc.type = t)).map (fun pc => pc.count)).sum

/-- Match one part against `/^(\d+)\s*(ADT|CHD|INF|Adult|Child|Infant)$/i`
and map the captured type word to a `PassengerType`
(`parsePassengerString` in `lib/utils/passengerBuilder.ts`). -/
def matchPassengerPart (p : String) : Option (Nat × PassengerType) :=
  let cs := p.data
  let ds := cs.takeWhile Char.isDigit
  let r1 := cs.dropWhile Char.isDigit
  if ds = [] then none
  else
    let rest := r1.dropWhile isJsSpace
    let word : String := ⟨rest.map Char.toUpper⟩
    if word = "ADT" || word = "ADULT" then some (digitsToNat ds, .ADT)
    else if word = "CHD" || word = "CHILD" then some (digitsToNat ds, .CHD)
    else if word = "INF" || word = "INFANT" then some (digitsToNat ds, .INF)
    else none

namespace PassengerBuilder

/-- `PassengerBuilder.parsePassengerString`: split on `,`, trim each part,
match each part against the passenger regex, throwing on the first invalid
part. -/
def parsePassengerString (passengerStr : String) : Except String (List PassengerCount) :=
  let parts := (splitComma passengerStr.data).map (fun cs => jsTrim ⟨cs⟩)
  parts.mapM (fun part =>
    match matchPassengerPart part with
    | none =>
      .error s!"Invalid passenger format: {part}. Expected format: \"3 ADT\" or \"1 CHD\""
    | some (count, type) => .ok { type := type, count := count })

/-- One pass of `expandPassengers` over the counts list for a fixed
non-infant type `t` (the source makes one such pass for `'ADT'` and one
for `'CHD'`), pushing `count` generated passengers per matching entry.
`gen`/`dob` are oracles for the `Math.random`-driven `generateUniqueName`
and `generateDateOfBirth`, indexed by the global generation call index
`k`; the source hardcodes `title:'Mr'` for every pushed passenger. -/
def expandLoop (gen : PassengerType → Nat → String × String)
    (dob : PassengerType → Nat → String) (t : PassengerType) :
    List PassengerCount → Nat → List Passenger
  | [], _ => []
  | pc :: rest, k =>
    if pc.type = t then
      ((List.range pc.count).map (fun i =>
        { type := t, title := "Mr", firstName := (gen t (k + i)).1,
          lastName := (gen t (k + i)).2, dateOfBirth := dob t (k + i) })) ++
      expandLoop gen dob t rest (k + pc.count)
    else expandLoop gen dob t rest k

/-- The infant pass of `expandPassengers`: like `expandLoop` for `'INF'`
but also threading `infantCounter` (`ic`) and associating each infant with
`adultNames[infantCounter % adultNames.length] || ''` (round-robin; `''`
when there is no adult, as in the source's `|| ''`). -/
def expandInfants (gen : PassengerType → Nat → String × String)
    (dob : PassengerType → Nat → String) (adultNames : List String) :
    List PassengerCount → Nat → Nat → List Passenger
  | [], _, _ => []
  | pc :: rest, k, ic =>
    if pc.type = .INF then
      ((List.range pc.count).map (fun i =>
        { type := .INF, title := "Mr", firstName := (gen .INF (k + i)).1,
          lastName := (gen .INF (k + i)).2, dateOfBirth := dob .INF (k + i),
          associatedAdult :=
            some (adultNames.getD ((ic + i) % adultNames.length) "") })) ++
      expandInfants gen dob adultNames rest (k + pc.count) (ic + pc.count)
    else expandInfants gen dob adultNames rest k ic

/-- `PassengerBuilder.expandPassengers`: adults first (collecting
`adultNames`), then children, then infants. -/
def expandPassengers (gen : PassengerType → Nat → String × String)
    (dob : PassengerType → Nat → String)
    (passengerCounts : List PassengerCount) : List Passenger :=
  let adults := expandLoop gen dob .ADT passengerCounts 0
  let adultNames := adults.map (fun p => p.firstName ++ " " ++ p.lastName)
  let children := expandLoop gen dob .CHD passengerCounts adults.length
  let infants := expandInfants gen dob adultNames passengerCounts
    (adults.length + children.length) 0
  adults ++ children ++ infants

/-- `PassengerBuilder.getTotalPassengerCount`: `reduce`-sum of all counts. -/
def getTotalPassengerCount (passengerCounts : List PassengerCount) : Nat :=
  passengerCounts.foldl (fun total pc => total + pc.count) 0

/-- `PassengerBuilder.getPassengerCountByType`: `find` the first entry of
the given type, else 0. -/
def getPassengerCountByType (passengerCounts : List PassengerCount)
    (type : PassengerType) : Nat :=
  match passengerCounts.find? (fun pc => pc.type = type) with
  | some pc => pc.count
  | none => 0

/-- `PassengerBuilder.validatePassengerCombination`: the four rule checks,
in source order. -/
def validatePassengerCombination (passengerCounts : List PassengerCount) :
    Except String Unit :=
  let adultCount := getPassengerCountByType passengerCounts .ADT
  let childCount := getPassengerCountByType passengerCounts .CHD
  let infantCount := getPassengerCountByType passengerCounts .INF
  if (childCount > 0 || infantCount > 0) && adultCount = 0 then
    .error "At least one adult is required when traveling with children or infants"
  else if infantCount > adultCount then
    .error s!"Cannot have more infants ({infantCount}) than adults ({adultCount})"
  else
    let totalPassengers := adultCount + childCount + infantCount
    if totalPassengers > 9 then
      .error s!"Maximum 9 passengers allowed, got {totalPassengers}"
    else if totalPassengers = 0 then
      .error "At least one passenger is required"
    else
      .ok ()

end PassengerBuilder

namespace ExcelReader

/-- `ExcelReader.parsePassengers`: character-for-character the same parsing
logic as `PassengerBuilder.parsePassengerString`. -/
def parsePassengers (passengers : String) : Except String (List PassengerCount) :=
  let parts := (splitComma passengers.data).map (fun cs => jsTrim ⟨cs⟩)
  parts.mapM (fun part =>
    match matchPassengerPart part with
    | none =>
      .error s!"Invalid passenger format: {part}. Expected format: \"3 ADT\" or \"1 CHD\""
    | some (count, type) => .ok { type := type, count := count })

end ExcelReader

/-- C9: the two passenger parsers agree on every input string. -/
theorem parsePassengerString_eq_parsePassengers (s : String) :
    PassengerBuilder.parsePassengerString s = ExcelReader.parsePassengers s := rfl

/-- C1 (counterexample): on the empty passenger list none of the three
throw-conditions named by the claim holds — no minors without adults, no
infant excess, total not above 9 — yet `validatePassengerCombination` does
not return normally: it throws the minimum-passenger error the claim
omits. -/
theorem validatePassengerCombination_claim_false_on_nil :
    ¬((PassengerBuilder.getPassengerCountByType [] .CHD > 0 ∨
        PassengerBuilder.getPassengerCountByType [] .INF > 0) ∧
      PassengerBuilder.getPassengerCountByType [] .ADT = 0) ∧
    ¬(PassengerBuilder.getPassengerCountByType [] .INF >
        PassengerBuilder.getPassengerCountByType [] .ADT) ∧
    ¬(PassengerBuilder.getPassengerCountByType [] .ADT +
        PassengerBuilder.getPassengerCountByType [] .CHD +
        PassengerBuilder.getPassengerCountByType [] .INF > 9) ∧
    PassengerBuilder.validatePassengerCombination [] =
      .error "At least one passenger is required" := by
  refine ⟨by decide, by decide, by decide, rfl⟩

/-- C1 (amended): `validatePassengerCombination` returns without error
exactly when the rules hold **and the total is positive**: it throws when
children or infants are present with zero adults, when infants exceed
adults, when the total of the adult, child and infant counts exceeds 9, or
when that total is zero; otherwise it returns normally. -/
theorem validatePassengerCombination_ok_iff (l : List PassengerCount) :
    PassengerBuilder.validatePassengerCombination l = .ok () ↔
      (¬((PassengerBuilder.getPassengerCountByType l .CHD > 0 ∨
            PassengerBuilder.getPassengerCountByType l .INF > 0) ∧
          PassengerBuilder.getPassengerCountByType l .ADT = 0) ∧
        PassengerBuilder.getPassengerCountByType l .INF ≤
          PassengerBuilder.getPassengerCountByType l .ADT ∧
        PassengerBuilder.getPassengerCountByType l .ADT +
          PassengerBuilder.getPassengerCountByType l .CHD +
          PassengerBuilder.getPassengerCountByType l .INF ≤ 9 ∧
        PassengerBuilder.getPassengerCountByType l .ADT +
          PassengerBuilder.getPassengerCountByType l .CHD +
          PassengerBuilder.getPassengerCountByType l .INF ≠ 0) := by
  simp only [PassengerBuilder.validatePassengerCombination]
  split_ifs with h1 h2 h3 h4 <;> simp_all

theorem expandLoop_length (gen : PassengerType → Nat → String × String)
    (dob : PassengerType → Nat → String) (t : PassengerType) :
    ∀ (counts : List PassengerCount) (k : Nat),
      (PassengerBuilder.expandLoop gen dob t counts k).length =
        sumCountsOfType t counts := by
  intro counts
  induction counts with
  | nil => intro k; simp [PassengerBuilder.expandLoop, sumCountsOfType]
  | cons pc rest ih =>
    intro k
    simp only [PassengerBuilder.expandLoop]
    by_cases h : pc.type = t
    · simp [h, ih, sumCountsOfType, List.filter_cons]
    · simp [h, ih, sumCountsOfType, List.filter_cons]

theorem expandLoop_types (gen : PassengerType → Nat → String × String)
    (dob : PassengerType → Nat → String) (t : PassengerType) :
    ∀ (counts : List PassengerCount) (k : Nat) (p : Passenger),
      p ∈ PassengerBuilder.expandLoop gen dob t counts k → p.type = t := by
  intro counts
  induction counts with
  | nil => intro k p hp; simp [PassengerBuilder.expandLoop] at hp
  | cons pc rest ih =>
    intro k p hp
    simp only [PassengerBuilder.expandLoop] at hp
    by_cases h : pc.type = t
    · rw [if_pos h] at hp
      rcases List.mem_append.mp hp with hmem | hp'
      · rcases List.mem_map.mp hmem with ⟨i, _, rfl⟩
        rfl
      · exact ih _ _ hp'
    · rw [if_neg h] at hp
      exact ih _ _ hp

theorem expandLoop_gen (gen : PassengerType → Nat → String × String)
    (dob : PassengerType → Nat → String) (t : PassengerType) :
    ∀ (counts : List PassengerCount) (k : Nat) (p : Passenger),
      p ∈ PassengerBuilder.expandLoop gen dob t counts k →
        ∃ j, p.firstName = (gen t j).1 ∧ p.lastName = (gen t j).2 ∧
          p.dateOfBirth = dob t j := by
  intro counts
  induction counts with
  | nil => intro k p hp; simp [PassengerBuilder.expandLoop] at hp
  | cons pc rest ih =>
    intro k p hp
    simp only [PassengerBuilder.expandLoop] at hp
    by_cases h : pc.type = t
    · rw [if_pos h] at hp
      rcases List.mem_append.mp hp with hmem | hp'
      · rcases List.mem_map.mp hmem with ⟨i, _, rfl⟩
        exact ⟨k + i, rfl, rfl, rfl⟩
      · exact ih _ _ hp'
    · rw [if_neg h] at hp
      exact ih _ _ hp

theorem expandInfants_length (gen : PassengerType → Nat → String × String)
    (dob : PassengerType → Nat → String) (adultNames : List String) :
    ∀ (counts : List PassengerCount) (k ic : Nat),
      (PassengerBuilder.expandInfants gen dob adultNames counts k ic).length =
        sumCountsOfType .INF counts := by
  intro counts
  induction counts with
  | nil => intro k ic; simp [PassengerBuilder.expandInfants, sumCountsOfType]
  | cons pc rest ih =>
    intro k ic
    simp only [PassengerBuilder.expandInfants]
    by_cases h : pc.type = PassengerType.INF
    · simp [h, ih, sumCountsOfType, List.filter_cons]
    · simp [h, ih, sumCountsOfType, List.filter_cons]

theorem expandInfants_types (gen : PassengerType → Nat → String × String)
    (dob : PassengerType → Nat → String) (adultNames : List String) :
    ∀ (counts : List PassengerCount) (k ic : Nat) (p : Passenger),
      p ∈ PassengerBuilder.expandInfants gen dob adultNames counts k ic →
        p.type = .INF := by
  intro counts
  induction counts with
  | nil => intro k ic p hp; simp [PassengerBuilder.expandInfants] at hp
  | cons pc rest ih =>
    intro k ic p hp
    simp only [PassengerBuilder.expandInfants] at hp
    by_cases h : pc.type = PassengerType.INF
    · rw [if_pos h] at hp
      rcases List.mem_append.mp hp with hmem | hp'
      · rcases List.mem_map.mp hmem with ⟨i, _, rfl⟩
        rfl
      · exact ih _ _ _ hp'
    · rw [if_neg h] at hp
      exact ih _ _ _ hp

theorem expandInfants_gen (gen : PassengerType → Nat → String × String)
    (dob : PassengerType → Nat → String) (adultNames : List String) :
    ∀ (counts : List PassengerCount) (k ic : Nat) (p : Passenger),
      p ∈ PassengerBuilder.expandInfants gen dob adultNames counts k ic →
        ∃ j, p.firstName = (gen .INF j).1 ∧ p.lastName = (gen .INF j).2 ∧
          p.dateOfBirth = dob .INF j := by
  intro counts
  induction counts with
  | nil => intro k ic p hp; simp [PassengerBuilder.expandInfants] at hp
  | cons pc rest ih =>
    intro k ic p hp
    simp only [PassengerBuilder.expandInfants] at hp
    by_cases h : pc.type = PassengerType.INF
    · rw [if_pos h] at hp
      rcases List.mem_append.mp hp with hmem | hp'
      · rcases List.mem_map.mp hmem with ⟨i, _, rfl⟩
        exact ⟨k + i, rfl, rfl, rfl⟩
      · exact ih _ _ _ hp'
    · rw [if_neg h] at hp
      exact ih _ _ _ hp

theorem foldl_add_counts (l : List PassengerCount) :
    ∀ a : Nat, l.foldl (fun total pc => total + pc.count) a =
      a + (l.map (fun pc => pc.count)).sum := by
  induction l with
  | nil => intro a; simp
  | cons pc rest ih => intro a; simp [ih]; omega

theorem sumCounts_split (counts : List PassengerCount) :
    sumCountsOfType .ADT counts + sumCountsOfType .CHD counts +
      sumCountsOfType .INF counts =
      PassengerBuilder.getTotalPassengerCount counts := by
  induction counts with
  | nil => rfl
  | cons pc rest ih =>
    rw [PassengerBuilder.getTotalPassengerCount, List.foldl_cons,
      foldl_add_counts] at *
    rcases hpc : pc.type <;>
      simp [sumCountsOfType, List.filter_cons, hpc] at * <;> omega

theorem filter_eq_of_all (l : List Passenger) (t t' : PassengerType)
    (h : ∀ p ∈ l, p.type = t) :
    l.filter (fun p => p.type = t') = if t = t' then l else [] := by
  induction l with
  | nil => simp
  | cons p rest ih =>
    have hp : p.type = t := h p (List.mem_cons_self _ _)
    have hrest := ih (fun q hq => h q (List.mem_cons_of_mem _ hq))
    by_cases ht : t = t'
    · simp [List.filter_cons, hp, ht, hrest]
    · simp [List.filter_cons, hp, ht, hrest]

/-- C2: for every choice oracle for name and date-of-birth generation and
every list of passenger counts, `expandPassengers` returns exactly one
record per counted passenger: for each type the number of records of that
type is the sum of the counts listed for that type, the total length is
`getTotalPassengerCount`, and every record carries a generated name and
date of birth for its own type. -/
theorem expandPassengers_spec (gen : PassengerType → Nat → String × String)
    (dob : PassengerType → Nat → String) (counts : List PassengerCount) :
    (PassengerBuilder.expandPassengers gen dob counts).length =
      PassengerBuilder.getTotalPassengerCount counts ∧
    (∀ t, ((PassengerBuilder.expandPassengers gen dob counts).filter
        (fun p => p.type = t)).length = sumCountsOfType t counts) ∧
    (∀ p, p ∈ PassengerBuilder.expandPassengers gen dob counts →
      ∃ j, p.firstName = (gen p.type j).1 ∧ p.lastName = (gen p.type j).2 ∧
        p.dateOfBirth = dob p.type j) := by
  simp only [PassengerBuilder.expandPassengers]
  refine ⟨?_, ?_, ?_⟩
  · simp only [List.length_append, expandLoop_length, expandInfants_length,
      ← sumCounts_split]
  · intro t
    rw [List.filter_append, List.filter_append,
      filter_eq_of_all _ .ADT t (fun p hp => expandLoop_types _ _ _ _ _ _ hp),
      filter_eq_of_all _ .CHD t (fun p hp => expandLoop_types _ _ _ _ _ _ hp),
      filter_eq_of_all _ .INF t (fun p hp => expandInfants_types _ _ _ _ _ _ _ hp)]
    rcases t <;>
      simp [expandLoop_length, expandInfants_length]
  · intro p hp
    rcases List.mem_append.mp hp with hp' | hp'
    · rcases List.mem_append.mp hp' with hA | hC
      · have ht := expandLoop_types gen dob .ADT counts 0 p hA
        rw [ht]; exact expandLoop_gen gen dob .ADT counts 0 p hA
      · have ht := expandLoop_types gen dob .CHD counts _ p hC
        rw [ht]; exact expandLoop_gen gen dob .CHD counts _ p hC
    · have ht := expandInfants_types gen dob _ counts _ _ p hp'
      rw [ht]; exact expandInfants_gen gen dob _ counts _ _ p hp'

/-- C2 (witness): the spec theorem applied at the concrete oracle
`gen t k = (s!"F\x7bk\x7d", "L")`, constant date of birth, and counts
`2 ADT, 1 INF`; the membership hypothesis is discharged at the concrete
infant record the expansion produces. -/
theorem expandPassengers_spec_witness :
    (PassengerBuilder.expandPassengers (fun _ k => (s!"F{k}", "L"))
        (fun _ _ => "01/01/2000")
        [⟨.ADT, 2⟩, ⟨.INF, 1⟩]).length =
      PassengerBuilder.getTotalPassengerCount [⟨.ADT, 2⟩, ⟨.INF, 1⟩] ∧
    ((PassengerBuilder.expandPassengers (fun _ k => (s!"F{k}", "L"))
        (fun _ _ => "01/01/2000")
        [⟨.ADT, 2⟩, ⟨.INF, 1⟩]).filter
      (fun p => p.type = .INF)).length =
      sumCountsOfType .INF [⟨.ADT, 2⟩, ⟨.INF, 1⟩] ∧
    ∃ j, (⟨.INF, "Mr", "F2", "L", "01/01/2000", some "F0 L"⟩ :
        Passenger).firstName =
      ((fun (_ : PassengerType) (k : Nat) => (s!"F{k}", "L")) .INF j).1 ∧
      (⟨.INF, "Mr", "F2", "L", "01/01/2000", some "F0 L"⟩ :
        Passenger).lastName =
      ((fun (_ : PassengerType) (k : Nat) => (s!"F{k}", "L")) .INF j).2 ∧
      (⟨.INF, "Mr", "F2", "L", "01/01/2000", some "F0 L"⟩ :
        Passenger).dateOfBirth =
      ((fun (_ : PassengerType) (_ : Nat) => "01/01/2000") .INF j) :=
  ⟨(expandPassengers_spec _ _ _).1, (expandPassengers_spec _ _ _).2.1 .INF,
    (expandPassengers_spec (fun _ k => (s!"F{k}", "L"))
      (fun _ _ => "01/01/2000") [⟨.ADT, 2⟩, ⟨.INF, 1⟩]).2.2
      ⟨.INF, "Mr", "F2", "L", "01/01/2000", some "F0 L"⟩ (by decide)⟩

/-- `ActionType` from `lib/data/types.ts`. -/
inductive ActionType where
  | Booking | Search | Results | PassengerInfo | BookingSummary
deriving DecidableEq, Repr

/-- The five steps of the booking flow named by the spec, at the
granularity of the page-object calls the execute functions make:
step 4 is `bookingSummaryPage.proceedToPaymentAndWait()` and step 5 the
final payment-completion step of the full flow. -/
inductive FlowStep where
  | search | results | passengerInfo | bookingSummary | payment
deriving DecidableEq, Repr

/-- The full five-step sequence Search, Results, PassengerInfo,
BookingSummary, Booking/Payment. -/
def fullFlowSteps : List FlowStep :=
  [.search, .results, .passengerInfo, .bookingSummary, .payment]

/-- `executeSearchOnly` (tests/comprehensive-e2e.spec.ts): fill and submit
the search form — step 1 only. -/
def executeSearchOnly : List FlowStep := [.search]

/-- `executeSearchAndResults`: step 1 then flight selection (step 2). -/
def executeSearchAndResults : List FlowStep :=
  executeSearchOnly ++ [.results]

/-- `executeUntilPassengerInfo`: steps 1–2 then passenger filling
(step 3). -/
def executeUntilPassengerInfo : List FlowStep :=
  executeSearchAndResults ++ [.passengerInfo]

/-- `executeUntilBookingSummary`: steps 1–3 then
`proceedToPaymentAndWait` (step 4); the step-4 verification block is
commented out in the source. -/
def executeUntilBookingSummary : List FlowStep :=
  executeUntilPassengerInfo ++ [.bookingSummary]

/-- `executeFullBookingFlow`: steps 1–4; the step-5 payment block
(`// Step 5: Complete booking (optional for test environment)`) is
entirely commented out in the source, so nothing is added. -/
def executeFullBookingFlow : List FlowStep :=
  executeUntilBookingSummary

/-- `executeScenario`'s switch on `scenario.action`; `none` models a
scenario whose `action` property is absent at runtime, which like every
non-listed value falls to the `default` branch. -/
def executeScenario : Option ActionType → List FlowStep
  | some .Search => executeSearchOnly
  | some .Results => executeSearchAndResults
  | some .PassengerInfo => executeUntilPassengerInfo
  | some .BookingSummary => executeUntilBookingSummary
  | some .Booking => executeFullBookingFlow
  | none => executeFullBookingFlow

/-- The number of steps the amended claim assigns to each action value. -/
def actionStepCount : Option ActionType → Nat
  | some .Search => 1
  | some .Results => 2
  | some .PassengerInfo => 3
  | _ => 4

/-- C3 (counterexample): a scenario with action `'Booking'` does not run
all five steps: `executeScenario` performs exactly the same four steps as
`'BookingSummary'` and never reaches the payment step, because the step-5
block of `executeFullBookingFlow` is commented out. -/
theorem executeScenario_booking_runs_four_steps :
    executeScenario (some .Booking) ≠ fullFlowSteps ∧
    executeScenario (some .Booking) =
      [.search, .results, .passengerInfo, .bookingSummary] ∧
    executeScenario (some .Booking) = executeScenario (some .BookingSummary) ∧
    FlowStep.payment ∉ executeScenario (some .Booking) := by
  refine ⟨by decide, rfl, rfl, by decide⟩

/-- C3 (amended): `executeScenario` runs exactly a prefix of the step
sequence Search, Results, PassengerInfo, BookingSummary, Payment
determined by the action (`'Search'` runs step 1 only, `'Results'` steps
1–2, `'PassengerInfo'` steps 1–3, and `'BookingSummary'`, `'Booking'` and
every other value steps 1–4 — the fifth payment step is never executed),
so a later step is never executed without all earlier steps having been
executed first. -/
theorem executeScenario_runs_exact_initial_segment (a : Option ActionType) :
    executeScenario a = fullFlowSteps.take (actionStepCount a) ∧
    FlowStep.payment ∉ executeScenario a := by
  rcases a with _ | a
  · exact ⟨rfl, by decide⟩
  · rcases a <;> exact ⟨rfl, by decide⟩

/-- `TripType` from `lib/data/types.ts` (`'One-way' | 'Round-trip'`). -/
inductive TripType where
  | Oneway | Roundtrip
deriving DecidableEq, Repr

/-- `TravelDates` from `lib/data/types.ts`; `returnDate` embeds the
optional `return` property. -/
structure TravelDates where
  departure : String
  returnDate : Option String := none
deriving DecidableEq, Repr

/-- Result of the environment's `new Date(...)` parse as observed through
`getDate()` (always 1–31), `getMonth()` (always 0–11) and
`getFullYear()`. -/
structure JsDate where
  day : Fin 32
  month : Fin 12
  year : Nat
deriving DecidableEq, Repr

/-- The month-name table of `ExcelReader.normalizeDate`. -/
def monthNames : List String :=
  ["Jan", "Feb", "Mar", "Apr", "May", "Jun",
   "Jul", "Aug", "Sep", "Oct", "Nov", "Dec"]

/-- Decimal digits of `n` (fuel-driven so that it reduces); models JS
`Number.prototype.toString` for naturals. -/
def decDigitsAux : Nat → Nat → List Char
  | 0, _ => []
  | fuel + 1, n =>
    if n < 10 then [Nat.digitChar n]
    else decDigitsAux fuel (n / 10) ++ [Nat.digitChar (n % 10)]

/-- JS `n.toString()` for a natural number. -/
def natToString (n : Nat) : String :=
  ⟨decDigitsAux (n + 1) n⟩

/-- JS `s.padStart(2, '0')`. -/
def padStart2Zero (s : String) : String :=
  if s.length ≥ 2 then s else ⟨List.replicate (2 - s.length) '0' ++ s.data⟩

/-- JS `s.slice(-2)`: the last two characters (all of `s` if shorter). -/
def lastTwoStr (s : String) : String :=
  ⟨(s.data.reverse.take 2).reverse⟩

/-- Test against `/^\d{1,2}-\w{3}-\d{2}$/` (the "already in correct
format" check of `ExcelReader.normalizeDate`). -/
def matchDDMMMYY (cs : List Char) : Bool :=
  let d := cs.takeWhile Char.isDigit
  let r1 := cs.dropWhile Char.isDigit
  let w := (r1.drop 1).takeWhile isWordChar
  let r3 := (r1.drop 1).dropWhile isWordChar
  let y := (r3.drop 1).takeWhile Char.isDigit
  let r5 := (r3.drop 1).dropWhile Char.isDigit
  decide (1 ≤ d.length ∧ d.length ≤ 2) && decide (r1.head? = some '-') &&
    decide (w.length = 3) && decide (r3.head? = some '-') &&
    decide (y.length = 2 ∧ r5 = [])

/-- Match against `/^(\d{1,2})-(\d{1,2})\s+(\w+)\s+(\d{4})$/` (the
`"20-23 Nov 2025"` range parser), returning the four captures. -/
def matchRange1 (s : String) : Option (String × String × String × String) :=
  let cs := s.data
  let d1 := cs.takeWhile Char.isDigit
  let r1 := cs.dropWhile Char.isDigit
  let d2 := (r1.drop 1).takeWhile Char.isDigit
  let r2 := (r1.drop 1).dropWhile Char.isDigit
  let sp1 := r2.takeWhile isJsSpace
  let r3 := r2.dropWhile isJsSpace
  let w := r3.takeWhile isWordChar
  let r4 := r3.dropWhile isWordChar
  let sp2 := r4.takeWhile isJsSpace
  let r5 := r4.dropWhile isJsSpace
  let y := r5.takeWhile Char.isDigit
  let r6 := r5.dropWhile Char.isDigit
  if 1 ≤ d1.length ∧ d1.length ≤ 2 ∧ r1.head? = some '-' ∧
      1 ≤ d2.length ∧ d2.length ≤ 2 ∧ sp1 ≠ [] ∧ w ≠ [] ∧ sp2 ≠ [] ∧
      y.length = 4 ∧ r6 = [] then
    some (⟨d1⟩, ⟨d2⟩, ⟨w⟩, ⟨y⟩)
  else none

/-- Match against `/^([^-]+)\s*-\s*([^-]+)$/` (the
`"20/11/2025 - 23/11/2025"` range parser): exactly one dash with a
non-empty chunk on each side; the two captures before trimming. -/
def matchRange2 (s : String) : Option (String × String) :=
  let cs := s.data
  if cs.count '-' = 1 then
    let left := cs.takeWhile (fun c => c ≠ '-')
    let right := (cs.dropWhile (fun c => c ≠ '-')).drop 1
    if left ≠ [] ∧ right ≠ [] then some (⟨left⟩, ⟨right⟩) else none
  else none

namespace ExcelReader

/-- `ExcelReader.normalizeDate`: trim, return unchanged if already
`DD-MMM-YY`-shaped, otherwise delegate to the environment's `new Date`
(the `oracle`), throwing on an invalid date, else reformatting as
`padded-day - month-name - last-two-of-year`. -/
def normalizeDate (oracle : String → Option JsDate) (dateStr : String) :
    Except String String :=
  let t := jsTrim dateStr
  if matchDDMMMYY t.data then .ok t
  else
    match oracle t with
    | none => .error s!"Invalid date: {t}"
    | some d =>
      .ok (padStart2Zero (natToString d.day.val) ++ "-" ++
        monthNames.getD d.month.val "" ++ "-" ++ lastTwoStr (natToString d.year))

/-- `ExcelReader.parseDates`: one-way normalizes the whole string as the
departure; round-trip tries the `"20-23 Nov 2025"` parser then the
`"20/11/2025 - 23/11/2025"` parser, and throws if neither matches. -/
def parseDates (oracle : String → Option JsDate) (dates : String) :
    TripType → Except String TravelDates
  | .Oneway =>
    (normalizeDate oracle dates).map (fun d => { departure := d })
  | .Roundtrip =>
    match matchRange1 dates with
    | some (startDay, endDay, month, year) => do
      let dep ← normalizeDate oracle
        (startDay ++ "-" ++ month ++ "-" ++ lastTwoStr year)
      let ret ← normalizeDate oracle
        (endDay ++ "-" ++ month ++ "-" ++ lastTwoStr year)
      .ok { departure := dep, returnDate := some ret }
    | none =>
      match matchRange2 dates with
      | some (l, r) => do
        let dep ← normalizeDate oracle (jsTrim l)
        let ret ← normalizeDate oracle (jsTrim r)
        .ok { departure := dep, returnDate := some ret }
      | none =>
        .error s!"Invalid date format: {dates}. Expected formats: \"15-Nov-25\" (one-way) or \"20-23 Nov 2025\" (round-trip)"

end ExcelReader

theorem mem_takeWhile_sat (p : Char → Bool) :
    ∀ (l : List Char) (c : Char), c ∈ l.takeWhile p → p c = true := by
  intro l
  induction l with
  | nil => intro c hc; simp [List.takeWhile] at hc
  | cons a l' ih =>
    intro c hc
    by_cases ha : p a = true
    · rw [List.takeWhile_cons, if_pos ha] at hc
      rcases List.mem_cons.mp hc with rfl | hc'
      · exact ha
      · exact ih c hc'
    · rw [List.takeWhile_cons, if_neg ha] at hc
      simp at hc

theorem spanParts (p : Char → Bool) (l r : List Char)
    (hl : ∀ c ∈ l, p c = true) (hr : ∀ c, r.head? = some c → p c = false) :
    (l ++ r).takeWhile p = l ∧ (l ++ r).dropWhile p = r := by
  induction l with
  | nil =>
    simp only [List.nil_append]
    cases r with
    | nil => simp
    | cons c r' =>
      have hc := hr c rfl
      rw [List.takeWhile_cons, List.dropWhile_cons, if_neg (by simp [hc]),
        if_neg (by simp [hc])]
      exact ⟨rfl, rfl⟩
  | cons a l' ih =>
    have ha : p a = true := hl a (List.mem_cons_self _ _)
    have ih' := ih (fun c hc => hl c (List.mem_cons_of_mem _ hc))
    simp only [List.cons_append, List.takeWhile_cons, List.dropWhile_cons,
      if_pos ha, ih'.1, ih'.2]
    simp

theorem allParts (p : Char → Bool) (l : List Char) (hl : ∀ c ∈ l, p c = true) :
    l.takeWhile p = l ∧ l.dropWhile p = [] := by
  have h := spanParts p l [] hl (by intro c hc; simp at hc)
  simpa using h

theorem trim_of_no_space (cs : List Char) (h : ∀ c ∈ cs, isJsSpace c = false) :
    trimChars cs = cs := by
  have h1 : cs.dropWhile isJsSpace = cs := by
    cases cs with
    | nil => rfl
    | cons a l =>
      rw [List.dropWhile_cons, if_neg (by simp [h a (List.mem_cons_self _ _)])]
  have h2 : cs.reverse.dropWhile isJsSpace = cs.reverse := by
    cases hrev : cs.reverse with
    | nil => rfl
    | cons a l =>
      have ha : a ∈ cs := by
        rw [← List.mem_reverse, hrev]; exact List.mem_cons_self _ _
      rw [List.dropWhile_cons, if_neg (by simp [h a ha])]
  rw [trimChars, h1, h2, List.reverse_reverse]

theorem space_chars {c : Char} (h : isJsSpace c = true) :
    c = ' ' ∨ c = '\t' ∨ c = '\n' ∨ c = '\r' := by
  have h' := h
  simp only [isJsSpace, Bool.or_eq_true, decide_eq_true_eq] at h'
  tauto

theorem digit_not_space {c : Char} (h : c.isDigit = true) : isJsSpace c = false := by
  cases hsp : isJsSpace c
  · rfl
  · rcases space_chars hsp with rfl | rfl | rfl | rfl <;> exact absurd h (by decide)

theorem word_not_space {c : Char} (h : isWordChar c = true) : isJsSpace c = false := by
  cases hsp : isJsSpace c
  · rfl
  · rcases space_chars hsp with rfl | rfl | rfl | rfl <;> exact absurd h (by decide)

theorem digit_word {c : Char} (h : c.isDigit = true) : isWordChar c = true := by
  simp [isWordChar, Char.isAlphanum, h]

theorem matchDDMMMYY_of_parts (d w y : List Char)
    (hd1 : d ≠ []) (hd2 : d.length ≤ 2) (hdd : ∀ c ∈ d, c.isDigit = true)
    (hw3 : w.length = 3) (hww : ∀ c ∈ w, isWordChar c = true)
    (hy2 : y.length = 2) (hyy : ∀ c ∈ y, c.isDigit = true) :
    matchDDMMMYY (d ++ '-' :: (w ++ '-' :: y)) = true := by
  have s1 := spanParts Char.isDigit d ('-' :: (w ++ '-' :: y)) hdd
    (fun c hc => by
      simp only [List.head?_cons, Option.some.injEq] at hc
      subst hc; decide)
  have s2 := spanParts isWordChar w ('-' :: y) hww
    (fun c hc => by
      simp only [List.head?_cons, Option.some.injEq] at hc
      subst hc; decide)
  have s3 := allParts Char.isDigit y hyy
  have hd0 : 1 ≤ d.length := List.length_pos.mpr hd1
  simp only [matchDDMMMYY, s1.1, s1.2, List.head?_cons, List.drop_one,
    List.tail_cons, s2.1, s2.2, s3.1, s3.2]
  simp [hd0, hd2, hw3, hy2]

theorem shape_decomp (cs : List Char) (h : matchDDMMMYY cs = true) :
    ∃ d w y : List Char,
      cs = d ++ '-' :: (w ++ '-' :: y) ∧
      d ≠ [] ∧ d.length ≤ 2 ∧ (∀ c ∈ d, c.isDigit = true) ∧
      w.length = 3 ∧ (∀ c ∈ w, isWordChar c = true) ∧
      y.length = 2 ∧ (∀ c ∈ y, c.isDigit = true) := by
  simp only [matchDDMMMYY, Bool.and_eq_true, decide_eq_true_eq] at h
  obtain ⟨⟨⟨⟨⟨hd1, hd2⟩, hh1⟩, hw3⟩, hh2⟩, hy2, hr5⟩ := h
  rcases hr1 : cs.dropWhile Char.isDigit with _ | ⟨c1, t⟩
  · rw [hr1] at hh1; simp at hh1
  · rw [hr1] at hh1 hh2 hw3 hy2 hr5
    simp only [List.head?_cons, Option.some.injEq] at hh1
    subst hh1
    simp only [List.drop_one, List.tail_cons] at hh2 hw3 hy2 hr5
    rcases hr3 : t.dropWhile isWordChar with _ | ⟨c2, t2⟩
    · rw [hr3] at hh2; simp at hh2
    · rw [hr3] at hh2 hy2 hr5
      simp only [List.head?_cons, Option.some.injEq] at hh2
      subst hh2
      simp only [List.drop_one, List.tail_cons] at hy2 hr5
      have e3 : t2.takeWhile Char.isDigit = t2 := by
        have e := List.takeWhile_append_dropWhile Char.isDigit t2
        rw [hr5, List.append_nil] at e
        exact e
      refine ⟨cs.takeWhile Char.isDigit, t.takeWhile isWordChar, t2, ?_,
        List.length_pos.mp hd1, hd2,
        fun c hc => mem_takeWhile_sat _ _ c hc, hw3,
        fun c hc => mem_takeWhile_sat _ _ c hc,
        by rw [← e3]; exact hy2,
        fun c hc => mem_takeWhile_sat _ _ c (e3 ▸ hc)⟩
      conv_lhs => rw [← List.takeWhile_append_dropWhile Char.isDigit cs]
      rw [hr1]
      congr 1
      congr 1
      conv_lhs => rw [← List.takeWhile_append_dropWhile isWordChar t]
      rw [hr3]

theorem shape_no_space (cs : List Char) (h : matchDDMMMYY cs = true) :
    ∀ c ∈ cs, isJsSpace c = false := by
  obtain ⟨d, w, y, hcs, _, _, hdd, _, hww, _, hyy⟩ := shape_decomp cs h
  intro c hc
  rw [hcs] at hc
  rcases List.mem_append.mp hc with hcd | hc1
  · exact digit_not_space (hdd c hcd)
  · rcases List.mem_cons.mp hc1 with rfl | hc2
    · decide
    · rcases List.mem_append.mp hc2 with hcw | hc3
      · exact word_not_space (hww c hcw)
      · rcases List.mem_cons.mp hc3 with rfl | hcy
        · decide
        · exact digit_not_space (hyy c hcy)

theorem normalizeDate_of_shape (oracle : String → Option JsDate) (s : String)
    (h : matchDDMMMYY s.data = true) :
    ExcelReader.normalizeDate oracle s = .ok s := by
  have hts : jsTrim s = s := by
    rcases s with ⟨cs⟩
    simp only [jsTrim]
    rw [trim_of_no_space cs (shape_no_space cs h)]
  simp only [ExcelReader.normalizeDate, hts, h, if_pos]

theorem digitChar_digit (m : Nat) (hm : m < 10) : (Nat.digitChar m).isDigit = true := by
  interval_cases m <;> decide

theorem decDigitsAux_digit :
    ∀ (fuel n : Nat), ∀ c ∈ decDigitsAux fuel n, c.isDigit = true := by
  intro fuel
  induction fuel with
  | zero => intro n c hc; simp [decDigitsAux] at hc
  | succ f ih =>
    intro n c hc
    simp only [decDigitsAux] at hc
    by_cases hn : n < 10
    · rw [if_pos hn] at hc
      simp only [List.mem_singleton] at hc
      subst hc
      exact digitChar_digit n hn
    · rw [if_neg hn] at hc
      rcases List.mem_append.mp hc with h1 | h2
      · exact ih _ c h1
      · simp only [List.mem_singleton] at h2
        subst h2
        exact digitChar_digit _ (Nat.mod_lt _ (by omega))

theorem decDigitsAux_ne_nil (fuel n : Nat) (hf : 0 < fuel) :
    decDigitsAux fuel n ≠ [] := by
  cases fuel with
  | zero => omega
  | succ f =>
    simp only [decDigitsAux]
    by_cases hn : n < 10
    · simp [hn]
    · simp [hn]

theorem decDigitsAux_len2 (fuel n : Nat) (hfuel : n < fuel) (hn : 10 ≤ n) :
    2 ≤ (decDigitsAux fuel n).length := by
  cases fuel with
  | zero => omega
  | succ f =>
    simp only [decDigitsAux, if_neg (by omega : ¬n < 10), List.length_append,
      List.length_singleton]
    have hne := decDigitsAux_ne_nil f (n / 10) (by omega)
    have := List.length_pos.mpr hne
    omega

theorem lastTwo_year (y : Nat) (hy : 10 ≤ y) :
    (lastTwoStr (natToString y)).data.length = 2 ∧
    ∀ c ∈ (lastTwoStr (natToString y)).data, c.isDigit = true := by
  constructor
  · have h2 := decDigitsAux_len2 (y + 1) y (by omega) hy
    simp only [lastTwoStr, natToString, List.length_reverse, List.length_take]
    omega
  · intro c hc
    simp only [lastTwoStr, natToString, List.mem_reverse] at hc
    have hmem : c ∈ (decDigitsAux (y + 1) y).reverse :=
      List.take_subset _ _ hc
    rw [List.mem_reverse] at hmem
    exact decDigitsAux_digit _ _ c hmem

theorem pad2_day_ok (dd : Fin 32) :
    (padStart2Zero (natToString dd.val)).data ≠ [] ∧
    (padStart2Zero (natToString dd.val)).data.length ≤ 2 ∧
    ∀ c ∈ (padStart2Zero (natToString dd.val)).data, c.isDigit = true := by
  revert dd; decide

theorem month_ok (mm : Fin 12) :
    (monthNames.getD mm.val "").data.length = 3 ∧
    ∀ c ∈ (monthNames.getD mm.val "").data, isWordChar c = true := by
  revert mm; decide

theorem matchRange1_inv (s d1 d2 m y : String)
    (h : matchRange1 s = some (d1, d2, m, y)) :
    d1.data ≠ [] ∧ d1.data.length ≤ 2 ∧ (∀ c ∈ d1.data, c.isDigit = true) ∧
    d2.data ≠ [] ∧ d2.data.length ≤ 2 ∧ (∀ c ∈ d2.data, c.isDigit = true) ∧
    m.data ≠ [] ∧ (∀ c ∈ m.data, isWordChar c = true) ∧
    y.data.length = 4 ∧ (∀ c ∈ y.data, c.isDigit = true) := by
  simp only [matchRange1] at h
  split at h
  · rename_i hcond
    obtain ⟨h1, h2, _, h4, h5, _, h7, _, h9, _⟩ := hcond
    injection h with h
    obtain ⟨e1, e2, e3, e4⟩ : d1 = _ ∧ d2 = _ ∧ m = _ ∧ y = _ := by
      have := h.symm
      exact ⟨congrArg (fun t => t.1) this, congrArg (fun t => t.2.1) this,
        congrArg (fun t => t.2.2.1) this, congrArg (fun t => t.2.2.2) this⟩
    subst e1; subst e2; subst e3; subst e4
    refine ⟨List.length_pos.mp h1, h2,
      fun c hc => mem_takeWhile_sat _ _ c hc,
      List.length_pos.mp h4, h5,
      fun c hc => mem_takeWhile_sat _ _ c hc,
      h7, fun c hc => mem_takeWhile_sat _ _ c hc,
      h9, fun c hc => mem_takeWhile_sat _ _ c hc⟩
  · exact absurd h (by simp)

/-- The concrete `new Date` behaviour Node exhibits on the two strings of
the C10 counterexample: `"0005-01-01"` ISO-parses to the year 5, while the
fallback's own output `"01-Jan-5"` legacy-parses its two-digit-style year
`5` as 2005. -/
def c10Oracle : String → Option JsDate := fun s =>
  if s = "0005-01-01" then some ⟨1, 0, 5⟩
  else if s = "01-Jan-5" then some ⟨1, 0, 2005⟩
  else none

/-- C10 (counterexample): `normalizeDate` on `"0005-01-01"` (year 5)
returns `"01-Jan-5"`, whose year part has a single digit, so the output
does not match the `DD-MMM-YY` shape; applying `normalizeDate` to this
output yields `"01-Jan-05"` — a different string — so
`normalizeDate (normalizeDate s)) ≠ normalizeDate s` for this input. -/
theorem normalizeDate_not_idempotent :
    ExcelReader.normalizeDate c10Oracle "0005-01-01" = .ok "01-Jan-5" ∧
    matchDDMMMYY ("01-Jan-5" : String).data = false ∧
    ExcelReader.normalizeDate c10Oracle "01-Jan-5" = .ok "01-Jan-05" ∧
    ExcelReader.normalizeDate c10Oracle "01-Jan-5" ≠ .ok "01-Jan-5" := by
  refine ⟨by decide, by decide, by decide, by decide⟩

/-- C10 (amended): whenever `normalizeDate` succeeds **and** either the
(trimmed) input already matched the `DD-MMM-YY` shape or the fallback's
parsed year is at least 10, the returned string matches the `DD-MMM-YY`
shape (one or two digit day, dash, three word characters, dash, two digit
year); `normalizeDate` returns every shape-matching string unchanged, so
it is idempotent on every such output. -/
theorem normalizeDate_shape_idempotent (oracle : String → Option JsDate)
    (s out : String) :
    (ExcelReader.normalizeDate oracle s = .ok out →
      (matchDDMMMYY (jsTrim s).data = true ∨
        ∀ d, oracle (jsTrim s) = some d → 10 ≤ d.year) →
      matchDDMMMYY out.data = true) ∧
    (matchDDMMMYY s.data = true →
      ExcelReader.normalizeDate oracle s = .ok s) ∧
    (ExcelReader.normalizeDate oracle s = .ok out →
      matchDDMMMYY out.data = true →
      ExcelReader.normalizeDate oracle out = .ok out) := by
  refine ⟨?_, fun hs => normalizeDate_of_shape oracle s hs,
    fun _ hout => normalizeDate_of_shape oracle out hout⟩
  intro h hyear
  simp only [ExcelReader.normalizeDate] at h
  by_cases hfast : matchDDMMMYY (jsTrim s).data = true
  · rw [if_pos hfast] at h
    injection h with h
    rw [← h]
    exact hfast
  · rw [if_neg hfast] at h
    rcases horacle : oracle (jsTrim s) with _ | d
    · rw [horacle] at h
      exact absurd h (by simp)
    · rw [horacle] at h
      injection h with h
      have hy : 10 ≤ d.year := by
        rcases hyear with hsh | hy
        · exact absurd hsh hfast
        · exact hy d horacle
      rw [← h]
      obtain ⟨hp1, hp2, hp3⟩ := pad2_day_ok d.day
      obtain ⟨hm1, hm2⟩ := month_ok d.month
      obtain ⟨hl1, hl2⟩ := lastTwo_year d.year hy
      have hdata :
          (padStart2Zero (natToString d.day.val) ++ "-" ++
            monthNames.getD d.month.val "" ++ "-" ++
            lastTwoStr (natToString d.year)).data =
          (padStart2Zero (natToString d.day.val)).data ++
            '-' :: ((monthNames.getD d.month.val "").data ++
              '-' :: (lastTwoStr (natToString d.year)).data) := by
        simp [String.data_append, List.append_assoc]
      rw [hdata]
      exact matchDDMMMYY_of_parts _ _ _ hp1 hp2 hp3 hm1 hm2 hl1 hl2

/-- C10 (witness for the amended theorem): applied at a fallback input
whose parsed year is 2025 and at the already-normalized input
`"15-Nov-25"`, discharging every hypothesis concretely. -/
theorem normalizeDate_shape_idempotent_witness :
    matchDDMMMYY ("01-Jan-25" : String).data = true ∧
    ExcelReader.normalizeDate (fun _ => some ⟨1, 0, 2025⟩) "15-Nov-25" =
      .ok "15-Nov-25" ∧
    ExcelReader.normalizeDate (fun _ => some ⟨1, 0, 2025⟩) "01-Jan-25" =
      .ok "01-Jan-25" :=
  ⟨(normalizeDate_shape_idempotent (fun _ => some ⟨1, 0, 2025⟩)
      "2025-01-01" "01-Jan-25").1 (by decide)
    (Or.inr (fun d hd => by
      injection hd with hd
      rw [← hd]
      decide)),
  (normalizeDate_shape_idempotent (fun _ => some ⟨1, 0, 2025⟩)
      "15-Nov-25" "15-Nov-25").2.1 (by decide),
  (normalizeDate_shape_idempotent (fun _ => some ⟨1, 0, 2025⟩)
      "2025-01-01" "01-Jan-25").2.2 (by decide) (by decide)⟩

/-- C7: `parseDates` is trip-type directed. (1) One-way returns only a
departure (the normalization of the whole string — no return date).
(2) Round-trip on a string matching the range form
`"<d1>-<d2> <Month> <Year>"` (month token of three word characters, as in
the normalized `DD-MMM-YY` output format) returns a departure on day `d1`
and a return on day `d2` of the same month and year, both in `DD-MMM-YY`
form. (3) Round-trip on a string matching neither supported range form
throws. -/
theorem parseDates_spec (oracle : String → Option JsDate) :
    (∀ s, ExcelReader.parseDates oracle s .Oneway =
      (ExcelReader.normalizeDate oracle s).map
        (fun d => { departure := d, returnDate := none })) ∧
    (∀ s d1 d2 m y, matchRange1 s = some (d1, d2, m, y) → m.data.length = 3 →
      ExcelReader.parseDates oracle s .Roundtrip =
        .ok { departure := d1 ++ "-" ++ m ++ "-" ++ lastTwoStr y,
              returnDate := some (d2 ++ "-" ++ m ++ "-" ++ lastTwoStr y) }) ∧
    (∀ s, matchRange1 s = none → matchRange2 s = none →
      ExcelReader.parseDates oracle s .Roundtrip =
        .error s!"Invalid date format: {s}. Expected formats: \"15-Nov-25\" (one-way) or \"20-23 Nov 2025\" (round-trip)") := by
  refine ⟨fun s => rfl, ?_, ?_⟩
  · intro s d1 d2 m y hm hlen3
    obtain ⟨hd1ne, hd1le, hd1dig, hd2ne, hd2le, hd2dig, hmne, hmword, hy4,
      hydig⟩ := matchRange1_inv s d1 d2 m y hm
    have hl2len : (lastTwoStr y).data.length = 2 := by
      simp only [lastTwoStr, List.length_reverse, List.length_take, hy4]
      decide
    have hl2dig : ∀ c ∈ (lastTwoStr y).data, c.isDigit = true := by
      intro c hc
      simp only [lastTwoStr, List.mem_reverse] at hc
      exact hydig c (List.mem_reverse.mp (List.take_subset _ _ hc))
    have hdata : ∀ d : String,
        (d ++ "-" ++ m ++ "-" ++ lastTwoStr y).data =
          d.data ++ '-' :: (m.data ++ '-' :: (lastTwoStr y).data) := by
      intro d
      simp [String.data_append, List.append_assoc]
    have hdep := normalizeDate_of_shape oracle
      (d1 ++ "-" ++ m ++ "-" ++ lastTwoStr y) (by
        rw [hdata d1]
        exact matchDDMMMYY_of_parts _ _ _ hd1ne hd1le hd1dig hlen3 hmword
          hl2len hl2dig)
    have hret := normalizeDate_of_shape oracle
      (d2 ++ "-" ++ m ++ "-" ++ lastTwoStr y) (by
        rw [hdata d2]
        exact matchDDMMMYY_of_parts _ _ _ hd2ne hd2le hd2dig hlen3 hmword
          hl2len hl2dig)
    simp only [ExcelReader.parseDates, hm, hdep, hret, Except.bind]
    rfl
  · intro s h1 h2
    simp only [ExcelReader.parseDates, h1, h2]

/-- C7 (witness): the three parts applied at `"15-Nov-25"` (one-way),
`"20-23 Nov 2025"` (round-trip range form) and `"garbage"` (round-trip,
no supported form), discharging every hypothesis concretely. -/
theorem parseDates_spec_witness :
    ExcelReader.parseDates (fun _ => none) "15-Nov-25" .Oneway =
      (ExcelReader.normalizeDate (fun _ => none) "15-Nov-25").map
        (fun d => { departure := d, returnDate := none }) ∧
    ExcelReader.parseDates (fun _ => none) "20-23 Nov 2025" .Roundtrip =
      .ok { departure := "20" ++ "-" ++ "Nov" ++ "-" ++ lastTwoStr "2025",
            returnDate := some ("23" ++ "-" ++ "Nov" ++ "-" ++
              lastTwoStr "2025") } ∧
    (ExcelReader.parseDates (fun _ => none) "garbage" .Roundtrip).isOk =
      false :=
  ⟨(parseDates_spec (fun _ => none)).1 "15-Nov-25",
    (parseDates_spec (fun _ => none)).2.1 "20-23 Nov 2025" "20" "23" "Nov"
      "2025" (by decide) (by decide),
    by
      rw [(parseDates_spec (fun _ => none)).2.2 "garbage" (by decide)
        (by decide)]
      rfl⟩

/-- `CabinClass` from `lib/data/types.ts`. -/
inductive CabinClass where
  | Economy | Premium | Business | First
deriving DecidableEq, Repr

/-- `sub` is an initial run of the second list (helper for JS
`String.prototype.includes`). -/
def startsWithChars : List Char → List Char → Bool
  | [], _ => true
  | _ :: _, [] => false
  | a :: s, b :: l => a = b && startsWithChars s l

/-- JS `l.includes(sub)` on character lists. -/
def containsChars (sub : List Char) : List Char → Bool
  | [] => startsWithChars sub []
  | c :: rest => startsWithChars sub (c :: rest) || containsChars sub rest

/-- JS `a || b` on strings: the first non-empty (truthy) one. -/
def jsOr (a b : String) : String := if a = "" then b else a

/-- JS `s.toLowerCase()` (ASCII, as used on the header/type tokens). -/
def jsToLower (s : String) : String := ⟨s.data.map Char.toLower⟩

namespace ExcelReader

/-- `ExcelReader.parseTripType`: lower-case, strip `[-_\s]`, then test for
the one-way and round-trip markers. -/
def parseTripType (value : String) : Except String TripType :=
  let normalized : String :=
    ⟨((jsToLower value).data.filter
      (fun c => !(c = '-' || c = '_' || isJsSpace c)))⟩
  if containsChars "oneway".data normalized.data || normalized = "ow" then
    .ok .Oneway
  else if containsChars "roundtrip".data normalized.data ||
      containsChars "return".data normalized.data || normalized = "rt" then
    .ok .Roundtrip
  else
    .error s!"Invalid trip type: {value}. Expected: One-way, Round-trip"

/-- `ExcelReader.parseCabinClass`: lower-case, trim, then the exact-match
switch. -/
def parseCabinClass (value : String) : Except String CabinClass :=
  let normalized := jsTrim (jsToLower value)
  if normalized = "economy" || normalized = "eco" || normalized = "e" then
    .ok .Economy
  else if normalized = "premium" || normalized = "premium economy" ||
      normalized = "pe" then
    .ok .Premium
  else if normalized = "business" || normalized = "biz" || normalized = "b" then
    .ok .Business
  else if normalized = "first" || normalized = "first class" ||
      normalized = "f" then
    .ok .First
  else
    .error s!"Invalid cabin class: {value}. Expected: Economy, Premium, Business, First"

/-- The `getValue` closure of `ExcelReader.parseRow`: look the column name
up in the lower-cased headers, read the cell (`''` when the column or cell
is missing), and trim it. -/
def getValue (headers row : List String) (columnName : String) : String :=
  match headers.findIdx? (fun h => h = jsToLower columnName) with
  | none => ""
  | some index => jsTrim (row.getD index "")

end ExcelReader

/-- `Scenario` from `lib/data/types.ts`, restricted to the properties
`ExcelReader.parseRow` can populate; option-typed fields model optional
TS properties (`none` = the property is absent). `action` is declared
required (`action: ActionType`) in the interface but is modelled as an
`Option` because `parseRow` never assigns it. -/
structure Scenario where
  scenarioID : String
  action : Option ActionType := none
  tripType : TripType
  origin : String
  destination : String
  passengers : String
  cabin : CabinClass
  fareFamily : String
  dates : String
  tags : String
  expectedResult : String
  promoCode : Option String := none
  discountCode : Option String := none
  loyaltyProgram : Option String := none
  memberId : Option String := none
  parsedPassengers : List PassengerCount
  parsedDates : TravelDates
  tagArray : List String
deriving DecidableEq, Repr

namespace ExcelReader

/-- `ExcelReader.parseRow`: scenarioID fallback chain and requiredness
check, trip-type/cabin parsing, required-fields check, then the scenario
object literal (which parses passengers and dates); the literal assigns
no `action`, `promoCode`, `discountCode`, `loyaltyProgram` or `memberId`
property. -/
def parseRow (oracle : String → Option JsDate) (headers row : List String)
    (rowNum : Nat) : Except String Scenario :=
  let getV := getValue headers row
  let scenarioID := jsOr (jsOr (getV "scenarioid") (getV "scenario_id"))
    (getV "id")
  if scenarioID = "" then .error s!"ScenarioID is required (row {rowNum})"
  else do
    let tripType ← parseTripType (jsOr (getV "triptype") (getV "trip_type"))
    let origin := getV "origin"
    let destination := getV "destination"
    let passengers := getV "passengers"
    let cabin ← parseCabinClass (getV "cabin")
    let dates := getV "dates"
    let tags := jsOr (getV "tags") ""
    if origin = "" || destination = "" || passengers = "" || dates = "" then
      .error s!"Required fields missing: origin, destination, passengers, dates (row {rowNum})"
    else do
      let parsedPassengers ← parsePassengers passengers
      let parsedDates ← parseDates oracle dates tripType
      .ok { scenarioID := scenarioID, tripType := tripType, origin := origin,
            destination := destination, passengers := passengers,
            cabin := cabin,
            fareFamily := jsOr (getV "farefamily") (getV "fare_family"),
            dates := dates, tags := tags,
            expectedResult := jsOr (getV "expectedresult")
              (getV "expected_result"),
            parsedPassengers := parsedPassengers,
            parsedDates := parsedDates,
            tagArray := ((splitComma tags.data).map
              (fun cs => jsTrim ⟨cs⟩)).filter (fun tag => tag.length > 0) }

end ExcelReader

/-- C4 (code bug): on a well-formed row whose `action` column holds the
valid `ActionType` value `"Search"`, `parseRow` succeeds and populates
trip type, origin, destination, passengers, cabin and dates — but the
returned scenario has no `action` value (and no promo/loyalty fields):
the loader never reads those columns, although `Scenario` declares
`action` as required and the repository's own ACTION-BASED-EXECUTION.md
states the reader parses and validates the Action column. -/
theorem parseRow_drops_action :
    ExcelReader.getValue
      ["scenarioid", "action", "triptype", "origin", "destination",
        "passengers", "cabin", "dates"]
      ["S1", "Search", "One-way", "DEL", "BOM", "1 ADT", "Economy",
        "15-Nov-25"] "Action" = "Search" ∧
    (ExcelReader.parseRow (fun _ => none)
      ["scenarioid", "action", "triptype", "origin", "destination",
        "passengers", "cabin", "dates"]
      ["S1", "Search", "One-way", "DEL", "BOM", "1 ADT", "Economy",
        "15-Nov-25"] 2).map
      (fun sc => (sc.action, sc.promoCode, sc.discountCode,
        sc.loyaltyProgram, sc.memberId)) =
      .ok (none, none, none, none, none) ∧
    (ExcelReader.parseRow (fun _ => none)
      ["scenarioid", "action", "triptype", "origin", "destination",
        "passengers", "cabin", "dates"]
      ["S1", "Search", "One-way", "DEL", "BOM", "1 ADT", "Economy",
        "15-Nov-25"] 2).map
      (fun sc => (sc.scenarioID, sc.tripType, sc.origin, sc.destination,
        sc.passengers, sc.cabin, sc.dates)) =
      .ok ("S1", .Oneway, "DEL", "BOM", "1 ADT", .Economy, "15-Nov-25") := by
  refine ⟨by decide, by decide, by rfl⟩

/-- `SelectorSuggestion` from `lib/data/types.ts` (confidence is the JS
number, embedded as a rational). -/
structure SelectorSuggestion where
  selector : String
  confidence : ℚ
  reasoning : String
deriving DecidableEq, Repr

/-- A JS number literal `num/den` given in lowest terms, as a rational
built directly from its normal form so that comparisons reduce in the
kernel (`jsNumber 9 10` is the source's `0.9`, `jsNumber 4 5` its `0.8`,
and so on). -/
def jsNumber (num : Int) (den : Nat) (hd : den ≠ 0 := by decide)
    (hr : num.natAbs.Coprime den := by decide) : ℚ :=
  Rat.mk' num den hd hr

namespace BasePage

/-- The selectors the fallback loop of `waitFor` actually tries: each
suggestion in order until the first that becomes ready. -/
def triedAlts (tryAlt : String → Bool) : List SelectorSuggestion → List String
  | [] => []
  | s :: rest =>
    if tryAlt s.selector then [s.selector]
    else s.selector :: triedAlts tryAlt rest

/-- The result of the fallback loop of `waitFor`: success on the first
ready suggestion, otherwise the original error `e` is re-thrown. -/
def tryLoop (tryAlt : String → Bool) (e : String) :
    List SelectorSuggestion → Except String Unit
  | [] => .error e
  | s :: rest => if tryAlt s.selector then .ok () else tryLoop tryAlt e rest

/-- `BasePage.waitFor` over an abstract session: `primary` is the outcome
of the primary locator's wait, `suggest` the outcome of
`SelectorAssistant.suggestSelectors` (it may itself throw), and `tryAlt`
says which alternative selectors become ready within their 5s timeout.
Returns the overall outcome, whether the suggestion module was consulted,
and the alternative selectors tried (the source slices the suggestions to
the first three). -/
def waitFor (primary : Except String Unit)
    (suggest : Except String (List SelectorSuggestion))
    (tryAlt : String → Bool) :
    Except String Unit × Bool × List String :=
  match primary with
  | .ok _ => (.ok (), false, [])
  | .error e =>
    match suggest with
    | .error _ => (.error e, true, [])
    | .ok suggestions =>
      (tryLoop tryAlt e (suggestions.take 3), true,
        triedAlts tryAlt (suggestions.take 3))

/-- `BasePage.retry`'s loop from a given 1-based `attempt` with
`rem` attempts remaining: `action j` is the outcome of the `j`-th
invocation. Returns the outcome (`.error none` only for the unreachable
zero-attempt `throw lastError!`), the number of invocations made, and the
delays waited between consecutive attempts. -/
def retryGo {ε α : Type} (action : Nat → Except ε α) (baseDelay maxDelay : Nat) :
    Nat → Nat → Except (Option ε) α × Nat × List Nat
  | _, 0 => (.error none, 0, [])
  | attempt, rem + 1 =>
    match action attempt with
    | .ok a => (.ok a, 1, [])
    | .error e =>
      if rem = 0 then (.error (some e), 1, [])
      else
        let delay := min (baseDelay * 2 ^ (attempt - 1)) maxDelay
        let r := retryGo action baseDelay maxDelay (attempt + 1) rem
        (r.1, r.2.1 + 1, delay :: r.2.2)

/-- `BasePage.retry` with the source's default option values
(`maxAttempts = 3`, `baseDelay = 1000`, `maxDelay = 10000`). -/
def retry {ε α : Type} (action : Nat → Except ε α) (maxAttempts : Nat := 3)
    (baseDelay : Nat := 1000) (maxDelay : Nat := 10000) :
    Except (Option ε) α × Nat × List Nat :=
  retryGo action baseDelay maxDelay 1 maxAttempts

end BasePage

/-- The suggestion list `waitFor` sees: the list on success, none on a
thrown suggestion error. -/
def suggestionsOf : Except String (List SelectorSuggestion) →
    List SelectorSuggestion
  | .ok l => l
  | .error _ => []

theorem tryLoop_eq (tryAlt : String → Bool) (e : String) :
    ∀ l, BasePage.tryLoop tryAlt e l =
      if l.any (fun s => tryAlt s.selector) then .ok () else .error e := by
  intro l
  induction l with
  | nil => simp [BasePage.tryLoop]
  | cons s rest ih =>
    by_cases hs : tryAlt s.selector
    · simp [BasePage.tryLoop, hs]
    · simp [BasePage.tryLoop, hs, ih]

theorem triedAlts_length (tryAlt : String → Bool) :
    ∀ l, (BasePage.triedAlts tryAlt l).length ≤ l.length := by
  intro l
  induction l with
  | nil => simp [BasePage.triedAlts]
  | cons s rest ih =>
    by_cases hs : tryAlt s.selector
    · simp [BasePage.triedAlts, hs]
    · simp only [BasePage.triedAlts, hs, if_neg, Bool.false_eq_true,
        not_false_eq_true, List.length_cons]
      omega

theorem triedAlts_from (tryAlt : String → Bool) :
    ∀ l sel, sel ∈ BasePage.triedAlts tryAlt l →
      ∃ sug ∈ l, sug.selector = sel := by
  intro l
  induction l with
  | nil => intro sel h; simp [BasePage.triedAlts] at h
  | cons s rest ih =>
    intro sel h
    by_cases hs : tryAlt s.selector
    · rw [BasePage.triedAlts, if_pos hs] at h
      simp only [List.mem_singleton] at h
      exact ⟨s, List.mem_cons_self _ _, h.symm⟩
    · rw [BasePage.triedAlts, if_neg hs] at h
      rcases List.mem_cons.mp h with rfl | h'
      · exact ⟨s, List.mem_cons_self _ _, rfl⟩
      · obtain ⟨sug, hmem, heq⟩ := ih sel h'
        exact ⟨sug, List.mem_cons_of_mem _ hmem, heq⟩

/-- C5: `waitFor` consults the suggestion module only after the primary
locator fails. If the primary wait succeeds, `waitFor` returns at once
without consulting suggestions. On primary failure it consults the module
and tries at most the first three suggested selectors — every selector it
tries is among the first three suggestions — and succeeds exactly when
one of those first three becomes ready; otherwise (including when the
suggestion module itself throws, or there are no suggestions) it
re-throws the original error of the primary selector. -/
theorem waitFor_spec (primary : Except String Unit)
    (suggest : Except String (List SelectorSuggestion))
    (tryAlt : String → Bool) :
    (primary = .ok () →
      BasePage.waitFor primary suggest tryAlt = (.ok (), false, [])) ∧
    (∀ e, primary = .error e →
      (BasePage.waitFor primary suggest tryAlt).2.1 = true ∧
      (BasePage.waitFor primary suggest tryAlt).2.2.length ≤ 3 ∧
      (∀ sel ∈ (BasePage.waitFor primary suggest tryAlt).2.2,
        ∃ sug ∈ (suggestionsOf suggest).take 3, sug.selector = sel) ∧
      (BasePage.waitFor primary suggest tryAlt).1 =
        (if ((suggestionsOf suggest).take 3).any
            (fun s => tryAlt s.selector) then .ok () else .error e)) := by
  constructor
  · intro h
    subst h
    rfl
  · intro e h
    subst h
    rcases suggest with esug | suggestions
    · refine ⟨rfl, by simp [BasePage.waitFor], ?_, ?_⟩
      · intro sel hsel
        simp [BasePage.waitFor] at hsel
      · simp [BasePage.waitFor, suggestionsOf]
    · refine ⟨rfl, ?_, ?_, ?_⟩
      · calc (BasePage.triedAlts tryAlt (suggestions.take 3)).length
            ≤ (suggestions.take 3).length := triedAlts_length _ _
          _ ≤ 3 := List.length_take_le _ _
      · intro sel hsel
        exact triedAlts_from tryAlt _ sel hsel
      · exact tryLoop_eq tryAlt e _

/-- C5 (witness): `waitFor` applied with a succeeding primary locator, and
with a failing one whose second suggested selector becomes ready. -/
theorem waitFor_spec_witness :
    BasePage.waitFor (.ok ()) (.ok []) (fun _ => false) =
      (.ok (), false, []) ∧
    (BasePage.waitFor (.error "timeout s0")
      (.ok [⟨"s1", jsNumber 1 2, "r1"⟩, ⟨"s2", jsNumber 1 3, "r2"⟩])
      (fun sel => sel = "s2")).1 =
      (if (((suggestionsOf
          (.ok [⟨"s1", jsNumber 1 2, "r1"⟩, ⟨"s2", jsNumber 1 3, "r2"⟩])).take 3).any
          (fun s => (fun sel => sel = "s2") s.selector)) then .ok ()
        else .error "timeout s0") :=
  ⟨(waitFor_spec (.ok ()) (.ok []) (fun _ => false)).1 rfl,
    ((waitFor_spec (.error "timeout s0")
      (.ok [⟨"s1", jsNumber 1 2, "r1"⟩, ⟨"s2", jsNumber 1 3, "r2"⟩])
      (fun sel => sel = "s2")).2 "timeout s0" rfl).2.2.2⟩

theorem retryGo_count_le {ε α : Type} (action : Nat → Except ε α)
    (b m : Nat) : ∀ (rem attempt : Nat),
    (BasePage.retryGo action b m attempt rem).2.1 ≤ rem := by
  intro rem
  induction rem with
  | zero => intro attempt; simp [BasePage.retryGo]
  | succ r ih =>
    intro attempt
    simp only [BasePage.retryGo]
    rcases action attempt with e | a
    · by_cases hr : r = 0
      · simp [hr]
      · simp only [if_neg hr]
        have := ih (attempt + 1)
        omega
    · simp

theorem delayList_shift (b m attempt n : Nat) (h1 : 1 ≤ attempt) :
    min (b * 2 ^ (attempt - 1)) m ::
      (List.range n).map (fun i => min (b * 2 ^ (attempt + 1 - 1 + i)) m) =
    (List.range (n + 1)).map (fun i => min (b * 2 ^ (attempt - 1 + i)) m) := by
  rw [List.range_succ_eq_map, List.map_cons, List.map_map]
  congr 1
  apply List.map_congr_left
  intro i _
  simp only [Function.comp_apply, Nat.add_sub_cancel]
  have he : attempt - 1 + (i + 1) = attempt + i := by omega
  rw [he]

theorem retryGo_first_ok {ε α : Type} (action : Nat → Except ε α)
    (b m : Nat) : ∀ (rem attempt k : Nat) (a : α),
    1 ≤ attempt → attempt ≤ k → k < attempt + rem →
    (∀ j, attempt ≤ j → j < k → ∃ e, action j = .error e) →
    action k = .ok a →
    BasePage.retryGo action b m attempt rem =
      (.ok a, k + 1 - attempt,
        (List.range (k - attempt)).map
          (fun i => min (b * 2 ^ (attempt - 1 + i)) m)) := by
  intro rem
  induction rem with
  | zero => intro attempt k a _ h2 h3 _ _; omega
  | succ r ih =>
    intro attempt k a h1 h2 h3 hfail hok
    by_cases hk : k = attempt
    · subst hk
      simp [BasePage.retryGo, hok, Nat.add_sub_cancel_left]
    · have hlt : attempt < k := lt_of_le_of_ne h2 (fun h => hk h.symm)
      obtain ⟨e, he⟩ := hfail attempt le_rfl hlt
      have hr0 : r ≠ 0 := by omega
      simp only [BasePage.retryGo, he, if_neg hr0]
      rw [ih (attempt + 1) k a (by omega) (by omega) (by omega)
        (fun j hj1 hj2 => hfail j (by omega) hj2) hok]
      rw [delayList_shift b m attempt (k - (attempt + 1)) h1]
      have hcnt : k + 1 - (attempt + 1) + 1 = k + 1 - attempt := by omega
      have hrange : k - (attempt + 1) + 1 = k - attempt := by omega
      rw [hcnt, hrange]

theorem retryGo_all_fail {ε α : Type} (action : Nat → Except ε α)
    (b m : Nat) : ∀ (rem attempt : Nat) (e : ε),
    1 ≤ attempt → 1 ≤ rem →
    (∀ j, attempt ≤ j → j < attempt + rem → ∃ e', action j = .error e') →
    action (attempt + rem - 1) = .error e →
    BasePage.retryGo action b m attempt rem =
      (.error (some e), rem,
        (List.range (rem - 1)).map
          (fun i => min (b * 2 ^ (attempt - 1 + i)) m)) := by
  intro rem
  induction rem with
  | zero => intro attempt e _ h2; omega
  | succ r ih =>
    intro attempt e h1 _ hfail hlast
    by_cases hr : r = 0
    · subst hr
      have : attempt + 1 - 1 = attempt := by omega
      rw [this] at hlast
      simp [BasePage.retryGo, hlast]
    · obtain ⟨e0, he0⟩ := hfail attempt le_rfl (by omega)
      simp only [BasePage.retryGo, he0, if_neg hr]
      rw [ih (attempt + 1) e (by omega) (by omega)
        (fun j hj1 hj2 => hfail j (by omega) (by omega))
        (by
          have harith : attempt + 1 + r - 1 = attempt + (r + 1) - 1 := by omega
          rw [harith]
          exact hlast)]
      rw [delayList_shift b m attempt (r - 1) h1]
      have hrange : r - 1 + 1 = r + 1 - 1 := by omega
      rw [hrange]

/-- C6: `retry` invokes the action at most `maxAttempts` times. If the
first success is at invocation `k`, it returns that result after exactly
`k` invocations, having waited `min(baseDelay * 2^(attempt-1), maxDelay)`
milliseconds after each of the `k - 1` failed attempts (exponential
backoff with a cap). If all `maxAttempts` invocations fail, it throws the
error of the last attempt after waiting the same capped backoff delays
between consecutive attempts. -/
theorem retry_spec {ε α : Type} (action : Nat → Except ε α) (M b m : Nat) :
    (BasePage.retry action M b m).2.1 ≤ M ∧
    (∀ k a, 1 ≤ k → k ≤ M →
      (∀ j, 1 ≤ j → j < k → ∃ e, action j = .error e) →
      action k = .ok a →
      BasePage.retry action M b m =
        (.ok a, k, (List.range (k - 1)).map (fun i => min (b * 2 ^ i) m))) ∧
    (∀ e, 1 ≤ M →
      (∀ j, 1 ≤ j → j < M → ∃ e', action j = .error e') →
      action M = .error e →
      BasePage.retry action M b m =
        (.error (some e), M,
          (List.range (M - 1)).map (fun i => min (b * 2 ^ i) m))) := by
  refine ⟨retryGo_count_le action b m M 1, ?_, ?_⟩
  · intro k a h1 h2 hfail hok
    have := retryGo_first_ok action b m M 1 k a le_rfl h1 (by omega) hfail hok
    rw [BasePage.retry, this]
    norm_num
  · intro e hM hfail hlast
    have := retryGo_all_fail action b m M 1 e le_rfl hM
      (fun j hj1 hj2 => by
        by_cases hjM : j = M
        · exact ⟨e, hjM ▸ hlast⟩
        · exact hfail j hj1 (by omega))
      (by
        have : 1 + M - 1 = M := by omega
        rw [this]
        exact hlast)
    rw [BasePage.retry, this]
    norm_num

/-- C6 (witness): `retry` applied to an action failing twice then
succeeding (three invocations, delays 100 then capped 150), and to an
always-failing action (three invocations, last error thrown). -/
theorem retry_spec_witness :
    BasePage.retry (fun j => if j < 3 then .error s!"fail{j}"
      else .ok "done") 3 100 150 =
      (.ok "done", 3,
        (List.range 2).map (fun i => min (100 * 2 ^ i) 150)) ∧
    BasePage.retry (fun _ => (.error "boom" : Except String String))
      3 100 150 =
      (.error (some "boom"), 3,
        (List.range 2).map (fun i => min (100 * 2 ^ i) 150)) :=
  ⟨(retry_spec (fun j => if j < 3 then .error s!"fail{j}"
      else .ok "done") 3 100 150).2.1 3 "done" (by omega) (by omega)
      (fun j h1 h2 => ⟨s!"fail{j}", by
        have : j < 3 := h2
        simp [this]⟩) (by norm_num),
    (retry_spec (fun _ => (.error "boom" : Except String String))
      3 100 150).2.2 "boom" (by omega)
      (fun j _ _ => ⟨"boom", rfl⟩) rfl⟩

/-- A nearby element collected by `collectPageContext`: the only fields
`generateFallbackSelectors` reads are the `data-testid` attribute (absent
= `none`) and the (possibly empty) text content. -/
structure NearbyElement where
  testId : Option String := none
  textContent : String := ""
deriving DecidableEq, Repr

/-- The page context passed to `generateFallbackSelectors`. -/
structure PageContext where
  nearbyElements : List NearbyElement
deriving DecidableEq, Repr

/-- One attempt of the extraction regexes
`lit[="'](<capture>)` at the start of `cs`: the literal, then one of
`=`/`"`/`'`, then a capture of `capPred`-characters (required non-empty
when `needOne`). -/
def tryCaptureAt (lit : List Char) (capPred : Char → Bool) (needOne : Bool)
    (cs : List Char) : Option String :=
  if startsWithChars lit cs then
    match cs.drop lit.length with
    | q :: after =>
      if q = '=' || q = '"' || q = '\'' then
        let cap := after.takeWhile capPred
        if needOne && cap.isEmpty then none else some ⟨cap⟩
      else none
    | [] => none
  else none

/-- Leftmost-match scan of an extraction regex over the selector (JS
`String.prototype.match` without the global flag). -/
def scanCapture (lit : List Char) (capPred : Char → Bool) (needOne : Bool) :
    List Char → Option String
  | [] => none
  | c :: rest =>
    match tryCaptureAt lit capPred needOne (c :: rest) with
    | some cap => some cap
    | none => scanCapture lit capPred needOne rest

/-- `failingSelector.match(/data-testid[="']([\w-]+)/)`'s capture. -/
def findTestId (cs : List Char) : Option String :=
  scanCapture "data-testid".data (fun ch => isWordChar ch || ch = '-') true cs

/-- `failingSelector.match(/class[="']([^"']*)/)`'s capture (computed by
the source but never used to build a suggestion). -/
def findClass (cs : List Char) : Option String :=
  scanCapture "class".data (fun ch => ch ≠ '"' && ch ≠ '\'') false cs

/-- `failingSelector.match(/text[="']([^"']*)/)`'s capture. -/
def findText (cs : List Char) : Option String :=
  scanCapture "text".data (fun ch => ch ≠ '"' && ch ≠ '\'') false cs

/-- Comparison used to model `suggestions.sort((a, b) => b.confidence -
a.confidence)`: non-increasing confidence. -/
def confGE (a b : SelectorSuggestion) : Prop :=
  b.confidence ≤ a.confidence

instance : DecidableRel confGE :=
  fun a b => inferInstanceAs (Decidable (b.confidence ≤ a.confidence))

instance : IsTotal SelectorSuggestion confGE :=
  ⟨fun a b => le_total b.confidence a.confidence⟩

instance : IsTrans SelectorSuggestion confGE :=
  ⟨fun _ _ _ h1 h2 => le_trans h2 h1⟩

namespace SelectorAssistant

/-- The two suggestions built from a `data-testid` pattern in the failing
selector. -/
def testIdSuggestions (cs : List Char) : List SelectorSuggestion :=
  match findTestId cs with
  | some testId =>
    [⟨s!"[data-testid=\"{testId}\"]", jsNumber 9 10,
      "Simplified data-testid selector"⟩,
     ⟨s!"[data-testid*=\"{testId}\"]", jsNumber 7 10,
      "Partial data-testid match"⟩]
  | none => []

/-- The two suggestions built from a `text` pattern in the failing
selector. -/
def textSuggestions (cs : List Char) : List SelectorSuggestion :=
  match findText cs with
  | some text =>
    [⟨s!"text=\"{text}\"", jsNumber 4 5, "Direct text selector"⟩,
     ⟨s!"text*=\"{text}\"", jsNumber 3 5, "Partial text match"⟩]
  | none => []

/-- The suggestions built from one nearby element: its `data-testid`
attribute when present and truthy, and its text content when non-empty. -/
def elementSuggestions (e : NearbyElement) : List SelectorSuggestion :=
  (match e.testId with
   | some t =>
     if t = "" then []
     else [⟨s!"[data-testid=\"{t}\"]", jsNumber 1 2,
       "Alternative element with data-testid"⟩]
   | none => []) ++
  (if e.textContent = "" then []
   else
     let tt := jsTrim e.textContent
     [⟨s!"text=\"{tt}\"", jsNumber 2 5, "Alternative element with text content"⟩])

/-- `SelectorAssistant.generateFallbackSelectors`: pattern-derived and
nearby-element suggestions, sorted by descending confidence (a stable
comparator sort models the JS `Array.prototype.sort`) and cut to the
first five. -/
def generateFallbackSelectors (pageContext : PageContext)
    (failingSelector : String) : List SelectorSuggestion :=
  ((testIdSuggestions failingSelector.data ++
    textSuggestions failingSelector.data ++
    (pageContext.nearbyElements.map elementSuggestions).flatten).insertionSort
      confGE).take 5

end SelectorAssistant

/-- The derivation property C8 claims of every suggestion: built from a
`data-testid` or `text` pattern extracted from the failing selector, or
from the `data-testid`/text of a nearby element of the page context. -/
def derivedFrom (ctx : PageContext) (failingSelector : String)
    (s : SelectorSuggestion) : Prop :=
  (∃ tid, findTestId failingSelector.data = some tid ∧
    (s.selector = s!"[data-testid=\"{tid}\"]" ∨
     s.selector = s!"[data-testid*=\"{tid}\"]")) ∨
  (∃ text, findText failingSelector.data = some text ∧
    (s.selector = s!"text=\"{text}\"" ∨ s.selector = s!"text*=\"{text}\"")) ∨
  (∃ e ∈ ctx.nearbyElements,
    (∃ t, e.testId = some t ∧ s.selector = s!"[data-testid=\"{t}\"]") ∨
    (e.textContent ≠ "" ∧
      (∃ tt, tt = jsTrim e.textContent ∧ s.selector = s!"text=\"{tt}\"")))

theorem mem_pool_derived (ctx : PageContext) (sel : String)
    (s : SelectorSuggestion)
    (h : s ∈ SelectorAssistant.testIdSuggestions sel.data ++
      SelectorAssistant.textSuggestions sel.data ++
      (ctx.nearbyElements.map SelectorAssistant.elementSuggestions).flatten) :
    derivedFrom ctx sel s := by
  rcases List.mem_append.mp h with h1 | hnear
  · rcases List.mem_append.mp h1 with htid | htext
    · left
      simp only [SelectorAssistant.testIdSuggestions] at htid
      rcases hf : findTestId sel.data with _ | tid
      · rw [hf] at htid; simp at htid
      · rw [hf] at htid
        refine ⟨tid, rfl, ?_⟩
        rcases List.mem_cons.mp htid with rfl | htid'
        · exact Or.inl rfl
        · rcases List.mem_cons.mp htid' with rfl | h0
          · exact Or.inr rfl
          · simp at h0
    · right; left
      simp only [SelectorAssistant.textSuggestions] at htext
      rcases hf : findText sel.data with _ | text
      · rw [hf] at htext; simp at htext
      · rw [hf] at htext
        refine ⟨text, rfl, ?_⟩
        rcases List.mem_cons.mp htext with rfl | htext'
        · exact Or.inl rfl
        · rcases List.mem_cons.mp htext' with rfl | h0
          · exact Or.inr rfl
          · simp at h0
  · right; right
    obtain ⟨l, hl, hsl⟩ := List.mem_flatten.mp hnear
    obtain ⟨e, he, rfl⟩ := List.mem_map.mp hl
    refine ⟨e, he, ?_⟩
    obtain ⟨tid, etext⟩ := e
    rcases tid with _ | t
    · simp only [SelectorAssistant.elementSuggestions, List.nil_append] at hsl
      right
      by_cases h0 : etext = ""
      · rw [if_pos h0] at hsl
        simp at hsl
      · rw [if_neg h0] at hsl
        rcases List.mem_cons.mp hsl with rfl | hx
        · exact ⟨h0, jsTrim etext, rfl, rfl⟩
        · simp at hx
    · simp only [SelectorAssistant.elementSuggestions] at hsl
      rcases List.mem_append.mp hsl with ht | htx
      · left
        by_cases htt : t = ""
        · rw [if_pos htt] at ht
          simp at ht
        · rw [if_neg htt] at ht
          rcases List.mem_cons.mp ht with rfl | h0
          · exact ⟨t, rfl, rfl⟩
          · simp at h0
      · right
        by_cases h0 : etext = ""
        · rw [if_pos h0] at htx
          simp at htx
        · rw [if_neg h0] at htx
          rcases List.mem_cons.mp htx with rfl | hx
          · exact ⟨h0, jsTrim etext, rfl, rfl⟩
          · simp at hx

/-- C8: `generateFallbackSelectors` returns at most 5 suggestions, sorted
in non-increasing order of confidence, and every returned suggestion is
derived from a `data-testid` or text pattern extracted from the failing
selector or from the attributes/text of a nearby element of the collected
page context (the class pattern the source also extracts is never used to
build a suggestion, so this is the full derivation set). -/
theorem generateFallbackSelectors_spec (ctx : PageContext) (sel : String) :
    (SelectorAssistant.generateFallbackSelectors ctx sel).length ≤ 5 ∧
    List.Sorted confGE (SelectorAssistant.generateFallbackSelectors ctx sel) ∧
    ∀ s ∈ SelectorAssistant.generateFallbackSelectors ctx sel,
      derivedFrom ctx sel s := by
  refine ⟨List.length_take_le _ _, ?_, ?_⟩
  · have hs := List.sorted_insertionSort confGE
      (SelectorAssistant.testIdSuggestions sel.data ++
        SelectorAssistant.textSuggestions sel.data ++
        (ctx.nearbyElements.map SelectorAssistant.elementSuggestions).flatten)
    exact List.Pairwise.sublist (List.take_sublist _ _) hs
  · intro s hmem
    have h1 := List.take_subset _ _ hmem
    have h2 := (List.perm_insertionSort confGE
      (SelectorAssistant.testIdSuggestions sel.data ++
        SelectorAssistant.textSuggestions sel.data ++
        (ctx.nearbyElements.map SelectorAssistant.elementSuggestions).flatten)).mem_iff.mp h1
    exact mem_pool_derived ctx sel s h2

/-- C8 (witness): the spec theorem applied at the failing selector
`[data-testid=submit-btn]` and a page context with one nearby element; the
membership hypothesis is discharged at the top suggestion the function
produces. -/
theorem generateFallbackSelectors_spec_witness :
    (SelectorAssistant.generateFallbackSelectors ⟨[⟨some "nav", "Go"⟩]⟩
      "[data-testid=submit-btn]").length ≤ 5 ∧
    List.Sorted confGE (SelectorAssistant.generateFallbackSelectors
      ⟨[⟨some "nav", "Go"⟩]⟩ "[data-testid=submit-btn]") ∧
    derivedFrom ⟨[⟨some "nav", "Go"⟩]⟩ "[data-testid=submit-btn]"
      ⟨"[data-testid=\"submit-btn\"]", jsNumber 9 10,
        "Simplified data-testid selector"⟩ :=
  ⟨(generateFallbackSelectors_spec ⟨[⟨some "nav", "Go"⟩]⟩
      "[data-testid=submit-btn]").1,
    (generateFallbackSelectors_spec ⟨[⟨some "nav", "Go"⟩]⟩
      "[data-testid=submit-btn]").2.1,
    (generateFallbackSelectors_spec ⟨[⟨some "nav", "Go"⟩]⟩
      "[data-testid=submit-btn]").2.2
      ⟨"[data-testid=\"submit-btn\"]", jsNumber 9 10,
        "Simplified data-testid selector"⟩ (by decide)⟩
